import Mathlib

/-!
Verification of the evaluation-and-visualization script of the 2DShapeGNN
repository (src/EvaluationAndVisualization.py), as a shallow embedding:
Python lists become Lean lists, Python floats are modelled as exact
rationals, Python `int()` is truncation toward zero, list slicing keeps
Python's clamping semantics, stateful library calls (model.eval, no_grad)
are explicit state passing, and fallible operations return Except/Option.
-/

namespace ShapeGNN

/-- Truncation toward zero on rationals, the semantics of Python `int(x)`
applied to a numeric value: `int(1.8) = 1`, `int(-1.8) = -1`. -/
def pyTrunc (q : ℚ) : ℤ :=
  if q < 0 then -⌊-q⌋ else ⌊q⌋

/-- Resolution of one (step-one) slice bound against a list of length `n`,
with Python's semantics: a negative bound counts from the end (clamped at
0), a non-negative bound is clamped at `n`. -/
def pyIdx (n : ℕ) (i : ℤ) : ℕ :=
  if i < 0 then ((n : ℤ) + i).toNat else min i.toNat n

/-- Python slice `xs[a:b]` with step 1: clamped bounds, never an error. -/
def pySlice {α : Type} (xs : List α) (a b : ℤ) : List α :=
  (xs.take (pyIdx xs.length b)).drop (pyIdx xs.length a)

/-- Embedding of `split_data` (src/EvaluationAndVisualization.py lines
73-93): computes `train_size = int(train_split * num_graphs)`,
`val_size = int(val_split * num_graphs)` and returns the three Python
slices `graphs[:train_size]`, `graphs[train_size:train_size+val_size]`,
`graphs[train_size+val_size:]`. -/
def split_data {α : Type} (graphs : List α) (train_split val_split : ℚ) :
    List α × List α × List α :=
  let num_graphs : ℕ := graphs.length
  let train_size : ℤ := pyTrunc (train_split * num_graphs)
  let val_size : ℤ := pyTrunc (val_split * num_graphs)
  let train_graphs := pySlice graphs 0 train_size
  let val_graphs := pySlice graphs train_size (train_size + val_size)
  let test_graphs := pySlice graphs (train_size + val_size) num_graphs
  (train_graphs, val_graphs, test_graphs)

example : split_data [0, 1, 2, 3, 4, 5, 6, 7, 8, 9] (6/10) (2/10) =
    ([0, 1, 2, 3, 4, 5], [6, 7], [8, 9]) := by
  norm_num [split_data, pySlice, pyIdx, pyTrunc]
  decide

example : (split_data [0, 1, 2] (3/5) (3/5)).2.2 = [2] := by
  norm_num [split_data, pySlice, pyIdx, pyTrunc]
  decide

/-- Compute-device designator (`torch.device`). -/
inductive Device : Type
  | cpu : Device
  | cuda : Device
deriving DecidableEq

/-- A collated batch of graphs as produced by the external data loader:
node features, edge connectivity, the per-node batch-assignment vector,
and the number of collated graphs (owned by the loader). -/
structure Batch : Type where
  x : List (List ℚ)
  edge_index : List (ℕ × ℕ)
  batch : List ℕ
  num_graphs : ℕ
deriving DecidableEq

/-- Model of the external library's `data.to(device)`: moving a batch to a
compute device changes where its storage lives, never its contents, so in
the embedding it is the identity on the data. -/
def Batch.to (b : Batch) (_d : Device) : Batch := b

/-- First index of a maximal entry of a score vector, the semantics of
`torch.argmax` along a row (ties resolved to the first occurrence). -/
def argmaxAux : List ℚ → ℕ → ℕ → ℚ → ℕ
  | [], _, besti, _ => besti
  | a :: rest, i, besti, bestv =>
      if bestv < a then argmaxAux rest (i + 1) i a
      else argmaxAux rest (i + 1) besti bestv

/-- Entry point of the row arg-max; `torch.argmax` of an empty row is out
of scope (the external model never returns zero classes), modelled as 0. -/
def argmax : List ℚ → ℕ
  | [] => 0
  | a :: rest => argmaxAux rest 1 0 a

/-- Embedding of the `Evaluator` class (lines 8-36): a trained model (its
forward pass, taking a batch already moved to the device and returning one
class-score row per graph), the loader's finite stream of batches, and the
device. `__init__` moves the model to the device, which does not change
its input-output behaviour. -/
structure Evaluator : Type where
  model : Batch → List (List ℚ)
  loader : List Batch
  device : Device

/-- Embedding of `Evaluator.evaluate` (lines 22-36): for each batch in
loader order, move it to the device, run the forward pass, take the
per-row arg-max, and append the pair to the accumulating list, which is
returned after the loader is exhausted. -/
def Evaluator.evaluate (e : Evaluator) : List (Batch × List ℕ) :=
  e.loader.foldl
    (fun predictions data =>
      let data := data.to e.device
      let pred := (e.model data).map argmax
      predictions ++ [(data, pred)])
    []

/-- The mutable runtime flags that `model.eval()` and `torch.no_grad()`
act on: whether the model is in training mode (stochastic regularization
active) and whether gradient tracking is enabled. -/
structure TorchState : Type where
  training : Bool
  gradEnabled : Bool
deriving DecidableEq

/-- Effect of `self.model.eval()` (line 29): clears training mode. -/
def modelEval (s : TorchState) : TorchState :=
  { s with training := false }

/-- Effect of entering `with torch.no_grad():` (line 31): disables
gradient tracking for the body. -/
def noGradEnter (s : TorchState) : TorchState :=
  { s with gradEnabled := false }

/-- Observable runtime events of `evaluate`: the call to `model.eval()`
and each forward pass, tagged with the training-mode and grad-tracking
flags in force when it runs. -/
inductive Event : Type
  | setEvalMode : Event
  | forward (trainingMode gradEnabled : Bool) : Event
deriving DecidableEq

/-- Instrumented embedding of `Evaluator.evaluate` (lines 29-36) with the
runtime-mode state passed explicitly: `model.eval()` runs first, the loop
body runs inside the `no_grad` scope, and each forward pass is recorded
with the flags in force. The first component is the returned prediction
list, the second the event trace. -/
def evaluateInstr (e : Evaluator) (s0 : TorchState) :
    List (Batch × List ℕ) × List Event :=
  let s1 := modelEval s0
  let s2 := noGradEnter s1
  e.loader.foldl
    (fun acc data =>
      let data := data.to e.device
      let pred := (e.model data).map argmax
      (acc.1 ++ [(data, pred)],
       acc.2 ++ [Event.forward s2.training s2.gradEnabled]))
    ([], [Event.setEvalMode])

/-- A single graph record as the Visualizer reads it: 2-D node positions
(`data.x`, an n-by-2 matrix of coordinates) and edge connectivity
(`data.edge_index`, read column-wise as (start, end) pairs). -/
structure GraphData : Type where
  x : List (ℚ × ℚ)
  edge_index : List (ℕ × ℕ)
deriving DecidableEq

/-- Python exception classes that `plot_graph` can raise. -/
inductive PyErr : Type
  | indexError : PyErr
  | keyError : PyErr
deriving DecidableEq

/-- The figure `plot_graph` builds: one gray line segment per edge, one
blue scatter marker per node, and the title string. -/
structure Figure : Type where
  lines : List ((ℚ × ℚ) × (ℚ × ℚ))
  scatter : List (ℚ × ℚ)
  title : String
deriving DecidableEq

/-- Reading `nodes[i]` from the node-coordinate matrix: an out-of-range
row index raises IndexError. -/
def getNode (nodes : List (ℚ × ℚ)) (i : ℕ) : Except PyErr (ℚ × ℚ) :=
  match nodes.get? i with
  | some p => Except.ok p
  | none => Except.error PyErr.indexError

/-- The edge-drawing loop of `plot_graph` (lines 58-65): for each edge
(start, end), draw the segment from `(nodes[start,0], nodes[start,1])` to
`(nodes[end,0], nodes[end,1])`; the first bad node index aborts the call
with IndexError. -/
def plotEdges (nodes : List (ℚ × ℚ)) :
    List (ℕ × ℕ) → Except PyErr (List ((ℚ × ℚ) × (ℚ × ℚ)))
  | [] => Except.ok []
  | (s, e) :: rest => do
      let ps ← getNode nodes s
      let pe ← getNode nodes e
      let segs ← plotEdges nodes rest
      Except.ok ((ps, pe) :: segs)

/-- Python dict lookup `label_mapping[k]`: a missing key raises KeyError. -/
def dictLookup (m : List (ℕ × String)) (k : ℕ) : Except PyErr String :=
  match m.lookup k with
  | some v => Except.ok v
  | none => Except.error PyErr.keyError

/-- Embedding of the static method `Visualizer.plot_graph` (lines 43-70),
with Python's mutable arguments passed as state: the result pairs the
rendering outcome (the figure, or the exception raised) with the
after-call values of the three arguments. The body only reads them:
extracts node coordinates and edges, draws a line per edge and a scatter
marker per node, and titles the plot with the mapped class name. -/
def plot_graph (data : GraphData) (pred : ℕ) (label_mapping : List (ℕ × String)) :
    Except PyErr Figure × GraphData × ℕ × List (ℕ × String) :=
  let nodes := data.x
  let edges := data.edge_index
  let fig : Except PyErr Figure := do
    let segs ← plotEdges nodes edges
    let name ← dictLookup label_mapping pred
    Except.ok { lines := segs, scatter := nodes, title := "Predicted: " ++ name }
  (fig, data, pred, label_mapping)

/-- The driver's hardcoded label mapping (line 134). -/
def label_mapping : List (ℕ × String) :=
  [(0, "triangle"), (1, "rectangle"), (2, "circle"), (3, "hexagon"), (4, "ellipse")]

/-- Modelled from the Python standard library contract of
`random.sample(population, k)`, used by the driver at line 138: raises
ValueError when `k` exceeds the population size, otherwise returns `k`
elements chosen from the population. Which `k` elements the generator
picks is abstracted by a deterministic representative (the first `k`);
the claims settled against this definition depend only on the error
condition, not on the selection. -/
def randomSample {α : Type} (population : List α) (k : ℕ) :
    Except String (List α) :=
  if k ≤ population.length then Except.ok (population.take k)
  else Except.error "Sample larger than population or is negative"

/-- The driver's random-sampling step (lines 135-138): select
`num_test_samples_to_plot` prediction batches from the evaluator's
output list. -/
def driverSelectSamples (predictions : List (Batch × List ℕ))
    (num_test_samples_to_plot : ℕ) : Except String (List (Batch × List ℕ)) :=
  randomSample predictions num_test_samples_to_plot

/-! Helper lemmas. -/

lemma pyTrunc_of_nonneg {q : ℚ} (h : 0 ≤ q) : pyTrunc q = ⌊q⌋ := by
  simp [pyTrunc, not_lt.mpr h]

lemma pyIdx_natCast (n a : ℕ) : pyIdx n a = min a n := by
  simp [pyIdx]

lemma pyIdx_zero (n : ℕ) : pyIdx n 0 = 0 := by
  simp [pyIdx]

lemma pyIdx_natCast_add (n a b : ℕ) : pyIdx n ((a : ℤ) + (b : ℤ)) = min (a + b) n := by
  rw [← Nat.cast_add, pyIdx_natCast]

lemma split_data_of_sizes {α : Type} (graphs : List α) (t v : ℚ) (a b : ℕ)
    (ha : pyTrunc (t * graphs.length) = a)
    (hb : pyTrunc (v * graphs.length) = b) :
    split_data graphs t v =
      (graphs.take (min a graphs.length),
       (graphs.take (min (a + b) graphs.length)).drop (min a graphs.length),
       graphs.drop (min (a + b) graphs.length)) := by
  simp only [split_data, pySlice, ha, hb, pyIdx_natCast, pyIdx_natCast_add,
    pyIdx_zero, Nat.min_self, List.take_length, List.drop_zero, Prod.mk.injEq]

lemma trunc_size_nonneg {q : ℚ} (n : ℕ) (h : 0 ≤ q) :
    pyTrunc (q * n) = ((⌊q * n⌋).toNat : ℤ) := by
  have h0 : (0 : ℚ) ≤ q * n := mul_nonneg h (by positivity)
  rw [pyTrunc_of_nonneg h0, Int.toNat_of_nonneg (Int.floor_nonneg.mpr h0)]

lemma floor_frac_le {q : ℚ} (n : ℕ) (h1 : q ≤ 1) :
    (⌊q * n⌋).toNat ≤ n := by
  have : ⌊q * n⌋ ≤ (n : ℤ) := by
    calc ⌊q * n⌋ ≤ ⌊(n : ℚ)⌋ :=
          Int.floor_le_floor (by
            calc q * n ≤ 1 * n := by
                  exact mul_le_mul_of_nonneg_right h1 (by positivity)
              _ = n := one_mul _)
      _ = n := Int.floor_natCast n
  omega

lemma floor_frac_add_le {t v : ℚ} (n : ℕ) (ht : 0 ≤ t) (hv : 0 ≤ v)
    (hsum : t + v ≤ 1) :
    (⌊t * n⌋).toNat + (⌊v * n⌋).toNat ≤ n := by
  have hfl : ⌊t * n⌋ + ⌊v * n⌋ ≤ (n : ℤ) := by
    have h1 : ((⌊t * n⌋ + ⌊v * n⌋ : ℤ) : ℚ) ≤ t * n + v * n := by
      push_cast
      exact add_le_add (Int.floor_le _) (Int.floor_le _)
    have h2 : t * n + v * n ≤ n := by
      calc t * n + v * n = (t + v) * n := by ring
        _ ≤ 1 * n := mul_le_mul_of_nonneg_right hsum (by positivity)
        _ = n := one_mul _
    exact_mod_cast h1.trans h2
  have h0t : (0 : ℤ) ≤ ⌊t * n⌋ :=
    Int.floor_nonneg.mpr (mul_nonneg ht (by positivity))
  have h0v : (0 : ℤ) ≤ ⌊v * n⌋ :=
    Int.floor_nonneg.mpr (mul_nonneg hv (by positivity))
  omega

/-! Claim theorems about the data splitter. -/

/-- C1: for every list of N graph records and fractions `train_split`,
`val_split` each in [0,1] with their sum at most 1, `split_data` computes
`train_size = floor(train_split * N)` and `val_size = floor(val_split * N)`
and returns exactly the three contiguous, non-overlapping, order-preserving
slices `records[0, train_size)`, `records[train_size, train_size+val_size)`,
`records[train_size+val_size, N)`, whose sizes sum to N. -/
theorem split_data_spec {α : Type} (graphs : List α) (t v : ℚ)
    (ht0 : 0 ≤ t) (ht1 : t ≤ 1) (hv0 : 0 ≤ v) (hv1 : v ≤ 1)
    (hsum : t + v ≤ 1) :
    pyTrunc (t * graphs.length) = ⌊t * (graphs.length : ℚ)⌋ ∧
    pyTrunc (v * graphs.length) = ⌊v * (graphs.length : ℚ)⌋ ∧
    split_data graphs t v =
      (graphs.take (⌊t * (graphs.length : ℚ)⌋).toNat,
       (graphs.drop (⌊t * (graphs.length : ℚ)⌋).toNat).take
         (⌊v * (graphs.length : ℚ)⌋).toNat,
       graphs.drop
         ((⌊t * (graphs.length : ℚ)⌋).toNat + (⌊v * (graphs.length : ℚ)⌋).toNat)) ∧
    (split_data graphs t v).1.length = (⌊t * (graphs.length : ℚ)⌋).toNat ∧
    (split_data graphs t v).2.1.length = (⌊v * (graphs.length : ℚ)⌋).toNat ∧
    (split_data graphs t v).2.2.length =
      graphs.length
        - ((⌊t * (graphs.length : ℚ)⌋).toNat + (⌊v * (graphs.length : ℚ)⌋).toNat) ∧
    (split_data graphs t v).1.length + (split_data graphs t v).2.1.length
      + (split_data graphs t v).2.2.length = graphs.length := by
  set n := graphs.length with hn
  set a := (⌊t * (n : ℚ)⌋).toNat with hadef
  set b := (⌊v * (n : ℚ)⌋).toNat with hbdef
  have h0t : (0 : ℚ) ≤ t * n := mul_nonneg ht0 (by positivity)
  have h0v : (0 : ℚ) ≤ v * n := mul_nonneg hv0 (by positivity)
  have hta : pyTrunc (t * n) = (a : ℤ) := trunc_size_nonneg n ht0
  have htb : pyTrunc (v * n) = (b : ℤ) := trunc_size_nonneg n hv0
  have han : a ≤ n := floor_frac_le n ht1
  have habn : a + b ≤ n := floor_frac_add_le n ht0 hv0 hsum
  have heq := split_data_of_sizes graphs t v a b hta htb
  have hmina : min a n = a := Nat.min_eq_left han
  have hminab : min (a + b) n = a + b := Nat.min_eq_left habn
  rw [hmina, hminab] at heq
  refine ⟨by rw [hta, hadef, Int.toNat_of_nonneg (Int.floor_nonneg.mpr h0t)],
    by rw [htb, hbdef, Int.toNat_of_nonneg (Int.floor_nonneg.mpr h0v)], ?_, ?_, ?_, ?_, ?_⟩
  · rw [heq, List.drop_take]
    simp
  · rw [heq]
    simp [List.length_take, han]
  · rw [heq]
    simp only [List.drop_take, List.length_take, List.length_drop]
    omega
  · rw [heq]
    simp only [List.length_drop]
  · rw [heq]
    simp only [List.length_take, List.length_drop, List.drop_take]
    omega

/-- Concrete instance of `split_data_spec`: 10 records with fractions
6/10 and 2/10 satisfy its hypotheses and conclusion. -/
theorem split_data_spec_witness :
    ((0 : ℚ) ≤ 6/10 ∧ (6/10 : ℚ) ≤ 1 ∧ (0 : ℚ) ≤ 2/10 ∧ (2/10 : ℚ) ≤ 1 ∧
      (6/10 : ℚ) + 2/10 ≤ 1) ∧
    (split_data [0, 1, 2, 3, 4, 5, 6, 7, 8, 9] (6/10) (2/10)).1.length
      + (split_data [0, 1, 2, 3, 4, 5, 6, 7, 8, 9] (6/10) (2/10)).2.1.length
      + (split_data [0, 1, 2, 3, 4, 5, 6, 7, 8, 9] (6/10) (2/10)).2.2.length
      = ([0, 1, 2, 3, 4, 5, 6, 7, 8, 9] : List ℕ).length :=
  ⟨⟨by norm_num, by norm_num, by norm_num, by norm_num, by norm_num⟩,
    (split_data_spec [0, 1, 2, 3, 4, 5, 6, 7, 8, 9] (6/10) (2/10)
      (by norm_num) (by norm_num) (by norm_num) (by norm_num)
      (by norm_num)).2.2.2.2.2.2⟩

/-- C5: for any list of exactly 10 records with train_split = 0.6 and
val_split = 0.2, `split_data` returns slices of sizes (6, 2, 2). -/
theorem split_data_ten_records {α : Type} (graphs : List α)
    (h : graphs.length = 10) :
    (split_data graphs (6/10) (2/10)).1.length = 6 ∧
    (split_data graphs (6/10) (2/10)).2.1.length = 2 ∧
    (split_data graphs (6/10) (2/10)).2.2.length = 2 := by
  have h6 : pyTrunc ((6/10 : ℚ) * graphs.length) = ((6 : ℕ) : ℤ) := by
    rw [h]; norm_num [pyTrunc]
  have h2 : pyTrunc ((2/10 : ℚ) * graphs.length) = ((2 : ℕ) : ℤ) := by
    rw [h]; norm_num [pyTrunc]
  rw [split_data_of_sizes graphs (6/10) (2/10) 6 2 h6 h2]
  simp only [List.length_take, List.length_drop, List.drop_take, h]
  omega

/-- Concrete instance of `split_data_ten_records` on the list 0..9. -/
theorem split_data_ten_records_witness :
    (split_data [0, 1, 2, 3, 4, 5, 6, 7, 8, 9] (6/10) (2/10)).1.length = 6 ∧
    (split_data [0, 1, 2, 3, 4, 5, 6, 7, 8, 9] (6/10) (2/10)).2.1.length = 2 ∧
    (split_data [0, 1, 2, 3, 4, 5, 6, 7, 8, 9] (6/10) (2/10)).2.2.length = 2 :=
  split_data_ten_records [0, 1, 2, 3, 4, 5, 6, 7, 8, 9] (by decide)

/-- C4 counterexample: with the three records [0, 1, 2] and fractions
train_split = val_split = 3/5 (whose sum 6/5 exceeds 1, each in [0,1]),
the third slice returned by `split_data` is [2], not empty: the floored
sizes are 1 and 1 and 1 + 1 < 3. -/
theorem split_data_overflow_cex :
    (1 : ℚ) < 3/5 + 3/5 ∧ (0 : ℚ) ≤ 3/5 ∧ (3/5 : ℚ) ≤ 1 ∧
    (split_data [0, 1, 2] (3/5) (3/5)).2.2 = [2] ∧
    (split_data [0, 1, 2] (3/5) (3/5)).2.2 ≠ ([] : List ℕ) := by
  refine ⟨by norm_num, by norm_num, by norm_num, ?_, ?_⟩ <;>
    · norm_num [split_data, pySlice, pyIdx, pyTrunc]
      try decide

/-- C4 amended: `split_data` is total (it never raises — every slice is
clamped), and the third (test) slice is empty exactly when the computed
`train_size + val_size` reaches the number of records; when the fractions
sum to more than 1 this can still leave a non-empty test slice, because
the two floors may lose enough to keep the sum below N. -/
theorem split_data_overflow_empty {α : Type} (graphs : List α) (t v : ℚ)
    (h : (graphs.length : ℤ) ≤
      pyTrunc (t * graphs.length) + pyTrunc (v * graphs.length)) :
    (split_data graphs t v).2.2 = [] := by
  simp only [split_data, pySlice]
  have hb : pyIdx graphs.length
      (pyTrunc (t * graphs.length) + pyTrunc (v * graphs.length))
      = graphs.length := by
    have h0 : (0 : ℤ) ≤
        pyTrunc (t * graphs.length) + pyTrunc (v * graphs.length) :=
      le_trans (by positivity) h
    unfold pyIdx
    rw [if_neg (not_lt.mpr h0)]
    omega
  rw [hb, pyIdx_natCast, Nat.min_self, List.take_length, List.drop_eq_nil_iff]

/-- Concrete instance of `split_data_overflow_empty`: two records with
fractions 3/5 and 3/5 give sizes 1 + 1 = 2 ≥ 2, hence an empty test
slice. -/
theorem split_data_overflow_empty_witness :
    (([0, 1] : List ℕ).length : ℤ) ≤
      pyTrunc ((3/5 : ℚ) * ([0, 1] : List ℕ).length)
        + pyTrunc ((3/5 : ℚ) * ([0, 1] : List ℕ).length) ∧
    (split_data [0, 1] (3/5) (3/5)).2.2 = ([] : List ℕ) :=
  ⟨by norm_num [pyTrunc], split_data_overflow_empty [0, 1] (3/5) (3/5)
    (by norm_num [pyTrunc])⟩

/-- C9: whenever both computed sizes are non-negative — including when
their sum exceeds the number of records — the concatenation of the three
slices returned by `split_data` is the original list in its original
order: Python slicing clamps out-of-range bounds instead of failing. -/
theorem split_data_concat {α : Type} (graphs : List α) (t v : ℚ)
    (ht : 0 ≤ pyTrunc (t * graphs.length))
    (hv : 0 ≤ pyTrunc (v * graphs.length)) :
    (split_data graphs t v).1 ++ (split_data graphs t v).2.1
      ++ (split_data graphs t v).2.2 = graphs := by
  set a := (pyTrunc (t * graphs.length)).toNat with hadef
  set b := (pyTrunc (v * graphs.length)).toNat with hbdef
  have ha : pyTrunc (t * graphs.length) = (a : ℤ) :=
    (Int.toNat_of_nonneg ht).symm
  have hb : pyTrunc (v * graphs.length) = (b : ℤ) :=
    (Int.toNat_of_nonneg hv).symm
  rw [split_data_of_sizes graphs t v a b ha hb]
  set n := graphs.length with hn
  have h12 : min a n ≤ min (a + b) n := by omega
  have htk : graphs.take (min a n)
      = (graphs.take (min (a + b) n)).take (min a n) := by
    rw [List.take_take, Nat.min_eq_left h12]
  calc graphs.take (min a n)
        ++ (graphs.take (min (a + b) n)).drop (min a n)
        ++ graphs.drop (min (a + b) n)
      = (graphs.take (min (a + b) n)).take (min a n)
          ++ (graphs.take (min (a + b) n)).drop (min a n)
          ++ graphs.drop (min (a + b) n) := by rw [← htk]
    _ = graphs.take (min (a + b) n) ++ graphs.drop (min (a + b) n) := by
          rw [List.take_append_drop]
    _ = graphs := List.take_append_drop ..

/-- Concrete instance of `split_data_concat` in the overflowing case:
fractions 3/5 and 3/5 on three records still reassemble the whole list. -/
theorem split_data_concat_witness :
    (0 ≤ pyTrunc ((3/5 : ℚ) * ([0, 1, 2] : List ℕ).length) ∧
      0 ≤ pyTrunc ((3/5 : ℚ) * ([0, 1, 2] : List ℕ).length)) ∧
    (split_data [0, 1, 2] (3/5) (3/5)).1 ++ (split_data [0, 1, 2] (3/5) (3/5)).2.1
      ++ (split_data [0, 1, 2] (3/5) (3/5)).2.2 = [0, 1, 2] :=
  ⟨⟨by norm_num [pyTrunc], by norm_num [pyTrunc]⟩,
    split_data_concat [0, 1, 2] (3/5) (3/5)
      (by norm_num [pyTrunc]) (by norm_num [pyTrunc])⟩

/-! Claim theorems about the Evaluator. -/

lemma foldl_append_singleton {β γ : Type} (f : β → γ) (l : List β)
    (acc : List γ) :
    l.foldl (fun a b => a ++ [f b]) acc = acc ++ l.map f := by
  induction l generalizing acc with
  | nil => simp
  | cons x xs ih => simp [ih]

lemma evaluate_eq_map (e : Evaluator) :
    e.evaluate = e.loader.map
      (fun data => (data.to e.device, (e.model (data.to e.device)).map argmax)) := by
  have h := foldl_append_singleton
    (fun data => (data.to e.device, (e.model (data.to e.device)).map argmax))
    e.loader []
  exact h.trans (List.nil_append _)

lemma foldl_pair_append {β γ δ : Type} (f : β → γ) (g : β → δ) (l : List β)
    (a1 : List γ) (a2 : List δ) :
    l.foldl (fun acc b => (acc.1 ++ [f b], acc.2 ++ [g b])) (a1, a2) =
      (a1 ++ l.map f, a2 ++ l.map g) := by
  induction l generalizing a1 a2 with
  | nil => simp
  | cons x xs ih => simp [ih]

/-- C2: for every model and loader yielding k batches, `evaluate` returns
exactly k pairs, the i-th being the i-th batch (moved to the device,
which preserves it) with the per-graph arg-max indices of the forward
pass on it, in loader order, after the loader is exhausted; under the
external model contract (one score row per graph) each predicted vector's
length is its batch's graph count. -/
theorem evaluate_spec (e : Evaluator)
    (hm : ∀ b ∈ e.loader, (e.model b).length = b.num_graphs) :
    e.evaluate.length = e.loader.length ∧
    e.evaluate = e.loader.map
      (fun data => (data.to e.device, (e.model (data.to e.device)).map argmax)) ∧
    ∀ p ∈ e.evaluate, p.2.length = p.1.num_graphs := by
  refine ⟨?_, evaluate_eq_map e, ?_⟩
  · rw [evaluate_eq_map e, List.length_map]
  · intro p hp
    rw [evaluate_eq_map e, List.mem_map] at hp
    obtain ⟨b, hb, rfl⟩ := hp
    simpa [Batch.to] using hm b hb

/-- A concrete batch used to instantiate the Evaluator theorems. -/
def wBatch : Batch :=
  { x := [[0, 0], [1, 0], [0, 1]]
    edge_index := [(0, 1), (1, 2)]
    batch := [0, 0, 1]
    num_graphs := 2 }

/-- A concrete evaluator: a model returning one score row per graph. -/
def wEvaluator : Evaluator :=
  { model := fun b => List.replicate b.num_graphs [1, 0]
    loader := [wBatch]
    device := Device.cpu }

/-- Concrete instance of `evaluate_spec` on `wEvaluator`. -/
theorem evaluate_spec_witness :
    (∀ b ∈ wEvaluator.loader, (wEvaluator.model b).length = b.num_graphs) ∧
    (wEvaluator.evaluate.length = wEvaluator.loader.length ∧
      wEvaluator.evaluate = wEvaluator.loader.map
        (fun data => (data.to wEvaluator.device,
          (wEvaluator.model (data.to wEvaluator.device)).map argmax)) ∧
      ∀ p ∈ wEvaluator.evaluate, p.2.length = p.1.num_graphs) :=
  ⟨by intro b hb; simp [wEvaluator, wBatch] at hb; simp [hb, wEvaluator],
    evaluate_spec wEvaluator
      (by intro b hb; simp [wEvaluator, wBatch] at hb; simp [hb, wEvaluator])⟩

/-- C8: the instrumented run of `evaluate` shows inference mode: the
first event is `model.eval()` (before any batch is processed), and every
forward pass runs with training mode off and gradient tracking disabled,
from any initial runtime state; the instrumented run computes the same
prediction list as `evaluate`. -/
theorem evaluate_inference_mode (e : Evaluator) (s0 : TorchState) :
    (evaluateInstr e s0).2 =
      Event.setEvalMode :: e.loader.map (fun _ => Event.forward false false) ∧
    (evaluateInstr e s0).1 = e.evaluate := by
  have h := foldl_pair_append
    (fun data => (data.to e.device, (e.model (data.to e.device)).map argmax))
    (fun _ : Batch => Event.forward false false)
    e.loader [] [Event.setEvalMode]
  have hinstr : evaluateInstr e s0 =
      ([] ++ e.loader.map
        (fun data => (data.to e.device, (e.model (data.to e.device)).map argmax)),
       [Event.setEvalMode] ++ e.loader.map (fun _ => Event.forward false false)) := h
  rw [hinstr, evaluate_eq_map e]
  simp

/-- C3: when `num_test_samples_to_plot` exceeds the number of prediction
batches returned by the evaluator, the driver's random-sampling step
fails with ValueError instead of silently proceeding. -/
theorem driver_sample_overflow (e : Evaluator) (k : ℕ)
    (h : e.evaluate.length < k) :
    driverSelectSamples e.evaluate k =
      Except.error "Sample larger than population or is negative" := by
  simp [driverSelectSamples, randomSample, not_le.mpr h, Nat.not_le.mpr h]

/-- Concrete instance of `driver_sample_overflow`: one prediction batch,
two requested samples. -/
theorem driver_sample_overflow_witness :
    wEvaluator.evaluate.length < 2 ∧
    driverSelectSamples wEvaluator.evaluate 2 =
      Except.error "Sample larger than population or is negative" :=
  ⟨by simp [wEvaluator, Evaluator.evaluate], driver_sample_overflow wEvaluator 2
    (by simp [wEvaluator, Evaluator.evaluate])⟩

/-! Claim theorems about the Visualizer and the label mapping. -/

/-- C6: `plot_graph` does not mutate any of its three inputs — the graph
record, the prediction, and the label mapping come back unchanged. -/
theorem plot_graph_no_mutation (data : GraphData) (pred : ℕ)
    (m : List (ℕ × String)) :
    (plot_graph data pred m).2 = (data, pred, m) := rfl

lemma label_mapping_lookup_isSome (k : ℕ) :
    (label_mapping.lookup k).isSome ↔ k < 5 := by
  rcases k with _ | _ | _ | _ | _ | k <;>
    simp [label_mapping, List.lookup]

/-- C7: the driver's label mapping is the fixed constant sending 0 to
"triangle", 1 to "rectangle", 2 to "circle", 3 to "hexagon" and 4 to
"ellipse", defined for exactly the indices 0 through 4, and no operation
of the program modifies it (in particular `plot_graph` returns it
unchanged). -/
theorem label_mapping_fixed :
    label_mapping.map Prod.fst = [0, 1, 2, 3, 4] ∧
    label_mapping.lookup 0 = some "triangle" ∧
    label_mapping.lookup 1 = some "rectangle" ∧
    label_mapping.lookup 2 = some "circle" ∧
    label_mapping.lookup 3 = some "hexagon" ∧
    label_mapping.lookup 4 = some "ellipse" ∧
    (∀ k : ℕ, (label_mapping.lookup k).isSome ↔ k < 5) ∧
    ∀ (d : GraphData) (p : ℕ),
      (plot_graph d p label_mapping).2.2.2 = label_mapping :=
  ⟨rfl, rfl, rfl, rfl, rfl, rfl, label_mapping_lookup_isSome,
    fun _ _ => rfl⟩

lemma getNode_ok {nodes : List (ℚ × ℚ)} {i : ℕ} (h : i < nodes.length) :
    ∃ p, getNode nodes i = Except.ok p := by
  simp only [getNode]
  rcases hg : nodes.get? i with _ | p
  · rw [List.get?_eq_none] at hg
    omega
  · exact ⟨p, rfl⟩

lemma plotEdges_ok {nodes : List (ℚ × ℚ)} {edges : List (ℕ × ℕ)}
    (h : ∀ e ∈ edges, e.1 < nodes.length ∧ e.2 < nodes.length) :
    ∃ segs, plotEdges nodes edges = Except.ok segs := by
  induction edges with
  | nil => exact ⟨[], rfl⟩
  | cons e rest ih =>
      obtain ⟨h1, h2⟩ := h e (List.mem_cons_self e rest)
      obtain ⟨ps, hps⟩ := getNode_ok h1
      obtain ⟨pe, hpe⟩ := getNode_ok h2
      obtain ⟨segs, hsegs⟩ := ih (fun e he => h e (List.mem_cons_of_mem _ he))
      refine ⟨(ps, pe) :: segs, ?_⟩
      obtain ⟨a, b⟩ := e
      simp only [plotEdges, bind, Except.bind] at hps hpe hsegs ⊢
      rw [hps, hpe, hsegs]

/-- C10: on a well-formed graph (every edge endpoint indexes a node),
`plot_graph` raises KeyError exactly when the predicted class index is
not a key of the supplied mapping; a successful render happens exactly
when it is; and with the driver's hardcoded mapping every prediction
outside 0 through 4 raises KeyError. -/
theorem plot_graph_key_error (d : GraphData) (p : ℕ) (m : List (ℕ × String))
    (hE : ∀ e ∈ d.edge_index, e.1 < d.x.length ∧ e.2 < d.x.length) :
    ((plot_graph d p m).1 = Except.error PyErr.keyError ↔ m.lookup p = none) ∧
    ((∃ f, (plot_graph d p m).1 = Except.ok f) ↔ (m.lookup p).isSome) ∧
    (4 < p → (plot_graph d p label_mapping).1 = Except.error PyErr.keyError) := by
  obtain ⟨segs, hsegs⟩ := plotEdges_ok hE
  have hfig : ∀ mm : List (ℕ × String), (plot_graph d p mm).1 =
      (do
        let name ← dictLookup mm p
        Except.ok (Figure.mk segs d.x ("Predicted: " ++ name)) :
          Except PyErr Figure) := by
    intro mm
    simp only [plot_graph, bind, Except.bind]
    rw [hsegs]
  refine ⟨?_, ?_, ?_⟩
  · rw [hfig m]
    rcases hl : m.lookup p with _ | name <;>
      simp [dictLookup, hl, bind, Except.bind]
  · rw [hfig m]
    rcases hl : m.lookup p with _ | name <;>
      simp [dictLookup, hl, bind, Except.bind]
  · intro hp
    have hnone : label_mapping.lookup p = none := by
      have := label_mapping_lookup_isSome p
      rcases hl : label_mapping.lookup p with _ | name
      · rfl
      · rw [hl] at this
        simp at this
        omega
    rw [hfig label_mapping]
    simp [dictLookup, hnone, bind, Except.bind]

/-- Concrete instance of `plot_graph_key_error`: a two-node, one-edge
graph with predicted class 7, outside the driver mapping's domain. -/
theorem plot_graph_key_error_witness :
    (∀ e ∈ (GraphData.mk [(0, 0), (1, 1)] [(0, 1)]).edge_index,
      e.1 < (GraphData.mk [(0, 0), (1, 1)] [(0, 1)]).x.length ∧
      e.2 < (GraphData.mk [(0, 0), (1, 1)] [(0, 1)]).x.length) ∧
    (4 < 7 ∧
      (plot_graph (GraphData.mk [(0, 0), (1, 1)] [(0, 1)]) 7 label_mapping).1
        = Except.error PyErr.keyError) :=
  ⟨by decide,
    by decide,
    (plot_graph_key_error (GraphData.mk [(0, 0), (1, 1)] [(0, 1)]) 7
      label_mapping (by decide)).2.2 (by decide)⟩

end ShapeGNN
